import Mathlib

/-!
Verification of the Ackerman perturbation module
(`l5kit/kinematic/ackerman_perturbation.py`).

The module is embedded shallowly over the reals:

* a row of the joint trajectory array is a triple `(x, y, yaw)` — note that
  `get_offset_at_idx` receives the full three-column array, so vector norms
  and normalisation there involve all three components, exactly as
  `np.linalg.norm` computes them on a row difference;
* numpy's negative-index semantics (`a[-1]` is the last element) is modelled
  by `npIdx`/`npGetD`/`npSet`; an out-of-range access (an `IndexError` at
  runtime) is modelled by the `getD` default and never occurs under the
  hypotheses of the theorems below;
* the external collaborators (`rotation33_as_yaw`, `yaw_as_rotation33`,
  `fit_ackerman_model_exact`) are abstract fields of an `Env`;
* the frame buffers are numpy record arrays owned by the caller; to state
  copy/freshness properties, `perturb` is embedded in state-passing style
  over a `Store` mapping array references to frame lists, with `.copy()`
  as allocation of a fresh reference.
-/

namespace AckermanPerturbationSpec

noncomputable section

/-- A row of the joint trajectory array: `(x, y, yaw)`. -/
abbrev Pose : Type := ℝ × ℝ × ℝ

/-- `NUMERICAL_THRESHOLD = 0.00001` from the source: if the lateral offset is
below this, the perturbation is not applied. -/
def NUMERICAL_THRESHOLD : ℝ := 0.00001

/-- The threshold local to `get_offset_at_idx`: minimum distance between two
consecutive trajectory points to go forward with direction computing. -/
def consecutive_point_distance_threshold : ℝ := 0.00001

/-- Euclidean norm of a full trajectory row difference, as `np.linalg.norm`
computes it (all three components participate, including the yaw column). -/
def norm3 (v : Pose) : ℝ := Real.sqrt (v.1 ^ 2 + v.2.1 ^ 2 + v.2.2 ^ 2)

/-- Componentwise difference of two trajectory rows, as numpy subtracts the
full rows (the yaw column included). -/
def psub (q p : Pose) : Pose := (q.1 - p.1, q.2.1 - p.2.1, q.2.2 - p.2.2)

/-- numpy index resolution: a negative index counts from the end. -/
def npIdx (n : ℕ) (i : ℤ) : ℕ := if i < 0 then ((n : ℤ) + i).toNat else i.toNat

/-- Read with numpy index semantics; out of range yields the default. -/
def npGetD {α : Type} (l : List α) (i : ℤ) (d : α) : α := l.getD (npIdx l.length i) d

/-- Write with numpy index semantics; out of range is a no-op in the model. -/
def npSet {α : Type} (l : List α) (i : ℤ) (v : α) : List α := l.set (npIdx l.length i) v

/-- `get_offset_at_idx(trajectory, perturbation_idx, lateral_offset_m,
longitudinal_offset_m)`: the 2-D displacement to add at the perturbation
index. -/
def get_offset_at_idx (trajectory : List Pose) (perturbation_idx : ℤ)
    (lateral_offset_m longitudinal_offset_m : ℝ) : ℝ × ℝ :=
  let num_frames := trajectory.length
  if (num_frames : ℤ) ≤ perturbation_idx + 1 then (0, 0)
  else
    let point_to_be_perturbed := npGetD trajectory perturbation_idx (0, 0, 0)
    let next_point_in_trajectory := npGetD trajectory (perturbation_idx + 1) (0, 0, 0)
    let d0 : Pose := psub next_point_in_trajectory point_to_be_perturbed
    let longitudinal_direction : Pose :=
      if norm3 d0 < consecutive_point_distance_threshold then
        let dd : Pose := psub (npGetD trajectory (-1) (0, 0, 0)) (npGetD trajectory 0 (0, 0, 0))
        if norm3 dd < consecutive_point_distance_threshold then (0, 0, 0)
        else (dd.1 / norm3 dd, dd.2.1 / norm3 dd, dd.2.2 / norm3 dd)
      else (d0.1 / norm3 d0, d0.2.1 / norm3 d0, d0.2.2 / norm3 d0)
    let lateral_direction : ℝ × ℝ := (longitudinal_direction.2.1, -longitudinal_direction.1)
    (lateral_offset_m * lateral_direction.1 + longitudinal_offset_m * longitudinal_direction.1,
     lateral_offset_m * lateral_direction.2 + longitudinal_offset_m * longitudinal_direction.2.1)

/-- Forward-difference distances between consecutive 2-D positions. -/
def speed_diffs : List (ℝ × ℝ) → List ℝ
  | p :: q :: rest => Real.sqrt ((q.2 - p.2) ^ 2 + (q.1 - p.1) ^ 2) :: speed_diffs (q :: rest)
  | _ => []

/-- The speed array of `_compute_speeds_from_positions` for `N ≥ 2` samples:
forward differences, with the last slot duplicating the second-to-last. -/
def speeds_with_dup (traj : List (ℝ × ℝ)) : List ℝ :=
  speed_diffs traj ++ [(speed_diffs traj).getLastD 0]

/-- `_compute_speeds_from_positions(trajectory)`: `none` models the numpy
IndexError raised by `speeds[-2]` when there are fewer than 2 samples. -/
def _compute_speeds_from_positions (traj : List (ℝ × ℝ)) : Option (List ℝ) :=
  if 2 ≤ traj.length then some (speeds_with_dup traj) else none

/-- One entry of a frame record array: a 3-D `ego_translation` (only `x, y`
are read and written by this module; the third component is untouched) and an
`ego_rotation` of an abstract rotation type `Rot`. -/
structure Frame (Rot : Type) where
  ego_translation : ℝ × ℝ × ℝ
  ego_rotation : Rot

/-- Arguments handed to the external `fit_ackerman_model_exact` collaborator. -/
structure FitArgs where
  x0 : ℝ
  y0 : ℝ
  r0 : ℝ
  v0 : ℝ
  gx : List ℝ
  gy : List ℝ
  gr : List ℝ
  gv : List ℝ
  wgx : List ℝ
  wgy : List ℝ
  wgr : List ℝ
  wgv : List ℝ

/-- Result of the external `fit_ackerman_model_exact` collaborator. -/
structure FitRes where
  new_xs : List ℝ
  new_ys : List ℝ
  new_yaws : List ℝ
  new_vs : List ℝ
  new_acc : List ℝ
  new_steer : List ℝ

/-- The external collaborators of the module, kept abstract: yaw extraction
from a rotation, rotation construction from a yaw, and the kinematic fit. -/
structure Env (Rot : Type) where
  rotation33_as_yaw : Rot → ℝ
  yaw_as_rotation33 : ℝ → Rot
  fit_ackerman_model_exact : FitArgs → FitRes

/-- `_get_history_and_future_frames_as_joint_trajectory`: history frames are
reverse-chronological, so they are reversed before the future frames are
appended; yaws are decoded from the rotations. -/
def _get_history_and_future_frames_as_joint_trajectory {Rot : Type} (env : Env Rot)
    (history_frames future_frames : List (Frame Rot)) : List Pose :=
  (history_frames.reverse.map fun f =>
      (f.ego_translation.1, f.ego_translation.2.1, env.rotation33_as_yaw f.ego_rotation))
    ++ future_frames.map fun f =>
      (f.ego_translation.1, f.ego_translation.2.1, env.rotation33_as_yaw f.ego_rotation)

/-- The write-back of the first `H` fitted rows into the history buffer:
`new_history_frames["ego_translation"][::-1, :2] = new_trajectory[:H, :2]` and
the analogous rotation assignment. History index `i` receives row `H - 1 - i`;
the third translation component survives from the copied original frame. -/
def split_history_frames {Rot : Type} (env : Env Rot) (history_frames : List (Frame Rot))
    (new_trajectory : List Pose) : List (Frame Rot) :=
  List.zipWith (fun (p : Pose) (f : Frame Rot) =>
      ⟨(p.1, p.2.1, f.ego_translation.2.2), env.yaw_as_rotation33 p.2.2⟩)
    ((new_trajectory.take history_frames.length).reverse) history_frames

/-- The write-back of the remaining fitted rows into the future buffer, in
forward order. -/
def split_future_frames {Rot : Type} (env : Env Rot) (future_frames : List (Frame Rot))
    (num_history_frames : ℕ) (new_trajectory : List Pose) : List (Frame Rot) :=
  List.zipWith (fun (p : Pose) (f : Frame Rot) =>
      ⟨(p.1, p.2.1, f.ego_translation.2.2), env.yaw_as_rotation33 p.2.2⟩)
    (new_trajectory.drop num_history_frames) future_frames

/-- `trajectory_with_offset_applied`: the joint trajectory with the sampled
offset added to the anchor row `num_history_frames - 1` (a Python int, hence
the numpy index semantics) — position offset first, then the yaw offset. -/
def trajectory_with_offset_applied {Rot : Type} (env : Env Rot)
    (history_frames future_frames : List (Frame Rot))
    (lateral_offset_m longitudinal_offset_m yaw_offset_rad : ℝ) : List Pose :=
  let reference_traj_sample :=
    _get_history_and_future_frames_as_joint_trajectory env history_frames future_frames
  let anchor : ℤ := (history_frames.length : ℤ) - 1
  let offset_m :=
    get_offset_at_idx reference_traj_sample anchor lateral_offset_m longitudinal_offset_m
  let t1 := npSet reference_traj_sample anchor
    (let p := npGetD reference_traj_sample anchor (0, 0, 0)
     (p.1 + offset_m.1, p.2.1 + offset_m.2, p.2.2))
  npSet t1 anchor
    (let p := npGetD t1 anchor (0, 0, 0)
     (p.1, p.2.1, p.2.2 + yaw_offset_rad))

/-- The targets, weights and initial state `perturb` passes to
`fit_ackerman_model_exact`. -/
def perturb_fit_args {Rot : Type} (env : Env Rot)
    (history_frames future_frames : List (Frame Rot))
    (lateral_offset_m longitudinal_offset_m yaw_offset_rad : ℝ) : FitArgs :=
  let twoa := trajectory_with_offset_applied env history_frames future_frames
    lateral_offset_m longitudinal_offset_m yaw_offset_rad
  let total_trajectory_length := history_frames.length + future_frames.length
  let anchor : ℤ := (history_frames.length : ℤ) - 1
  let gv := speeds_with_dup (twoa.map fun p => (p.1, p.2.1))
  { x0 := (twoa.getD 0 (0, 0, 0)).1
    y0 := (twoa.getD 0 (0, 0, 0)).2.1
    r0 := (twoa.getD 0 (0, 0, 0)).2.2
    v0 := gv.getD 0 0
    gx := twoa.map fun p => p.1
    gy := twoa.map fun p => p.2.1
    gr := twoa.map fun p => p.2.2
    gv := gv
    wgx := npSet (List.replicate total_trajectory_length 1) anchor 5
    wgy := npSet (List.replicate total_trajectory_length 1) anchor 5
    wgr := List.replicate total_trajectory_length 0
    wgv := List.replicate total_trajectory_length 0 }

/-- The full perturbation path of `perturb` as a pure value transformation:
build the fit arguments, run the external fit, zip the fitted columns into
`new_trajectory` (Python `zip` truncates to the shortest column, as does
`List.zip`), and split the rows back into the two buffers. -/
def perturb_applied {Rot : Type} (env : Env Rot)
    (history_frames future_frames : List (Frame Rot))
    (lateral_offset_m longitudinal_offset_m yaw_offset_rad : ℝ) :
    List (Frame Rot) × List (Frame Rot) :=
  let res := env.fit_ackerman_model_exact (perturb_fit_args env history_frames future_frames
    lateral_offset_m longitudinal_offset_m yaw_offset_rad)
  let new_trajectory : List Pose := res.new_xs.zip (res.new_ys.zip res.new_yaws)
  (split_history_frames env history_frames new_trajectory,
   split_future_frames env future_frames history_frames.length new_trajectory)

/-- A store of caller-owned frame arrays, addressed by references; `.copy()`
allocates a fresh reference. -/
abbrev Store (Rot : Type) : Type := List (List (Frame Rot))

/-- Dereference an array in the store. -/
def read {Rot : Type} (s : Store Rot) (r : ℕ) : List (Frame Rot) := s.getD r []

/-- Overwrite the array behind a reference (in-place numpy assignment). -/
def write {Rot : Type} (s : Store Rot) (r : ℕ) (v : List (Frame Rot)) : Store Rot := s.set r v

/-- Allocate a fresh array holding `v`; returns the new store and reference. -/
def alloc {Rot : Type} (s : Store Rot) (v : List (Frame Rot)) : Store Rot × ℕ :=
  (s ++ [v], s.length)

/-- What `perturb` hands back: the final store, the references of the two
returned buffers, and whether the low-lateral-distance warning fired. -/
structure PerturbResult (Rot : Type) where
  store : Store Rot
  history_ref : ℕ
  future_ref : ℕ
  warned : Bool

/-- `AckermanPerturbation.perturb` in state-passing style. The probability
draw `rand` and the sampled offsets are explicit inputs (they are external
randomness in the source). Every path first copies both input buffers; the
full path then overwrites the two fresh copies with the fitted frames. -/
def perturb {Rot : Type} (env : Env Rot) (perturb_prob rand : ℝ)
    (offsets : ℝ × ℝ × ℝ) (s : Store Rot) (history_ref future_ref : ℕ) :
    PerturbResult Rot :=
  if perturb_prob ≤ rand then
    let a1 := alloc s (read s history_ref)
    let a2 := alloc a1.1 (read a1.1 future_ref)
    ⟨a2.1, a1.2, a2.2, false⟩
  else
    let lateral_offset_m := offsets.1
    let longitudinal_offset_m := offsets.2.1
    let yaw_offset_rad := offsets.2.2
    if |lateral_offset_m| < NUMERICAL_THRESHOLD then
      let a1 := alloc s (read s history_ref)
      let a2 := alloc a1.1 (read a1.1 future_ref)
      ⟨a2.1, a1.2, a2.2, true⟩
    else
      let history_frames := read s history_ref
      let future_frames := read s future_ref
      if history_frames.length + future_frames.length < 2 then
        let a1 := alloc s (read s history_ref)
        let a2 := alloc a1.1 (read a1.1 future_ref)
        ⟨a2.1, a1.2, a2.2, false⟩
      else
        let nf := perturb_applied env history_frames future_frames
          lateral_offset_m longitudinal_offset_m yaw_offset_rad
        let a1 := alloc s (read s history_ref)
        let a2 := alloc a1.1 (read a1.1 future_ref)
        let s3 := write a2.1 a1.2 nf.1
        let s4 := write s3 a2.2 nf.2
        ⟨s4, a1.2, a2.2, false⟩

/-! Store lemmas shared by the `perturb` theorems. -/

theorem read_append_self {Rot : Type} (s : Store Rot) (v : List (Frame Rot)) :
    read (s ++ [v]) s.length = v := by
  simp [read, List.getD_append_right s [v] [] s.length le_rfl]

theorem read_append_ne {Rot : Type} (s : Store Rot) (v : List (Frame Rot)) (r : ℕ)
    (h : r ≠ s.length) : read (s ++ [v]) r = read s r := by
  rcases Nat.lt_or_ge r s.length with h' | h'
  · simp [read, List.getD_eq_getElem?_getD, List.getElem?_append_left h']
  · have hz : 1 ≤ r - s.length := by omega
    rw [read, read, List.getD_eq_getElem?_getD, List.getD_eq_getElem?_getD,
      List.getElem?_append_right h', List.getElem?_eq_none (by simpa using hz),
      List.getElem?_eq_none h']

theorem read_write_ne {Rot : Type} (s : Store Rot) (r r' : ℕ) (v : List (Frame Rot))
    (h : r' ≠ r) : read (write s r v) r' = read s r' := by
  simp [read, write, List.getD_eq_getElem?_getD, List.getElem?_set_ne (Ne.symm h)]

/-- The store after the two `.copy()` allocations every `perturb` path makes. -/
def copy2 {Rot : Type} (s : Store Rot) (history_ref future_ref : ℕ) : Store Rot :=
  (s ++ [read s history_ref]) ++ [read (s ++ [read s history_ref]) future_ref]

theorem read_copy2_hist {Rot : Type} (s : Store Rot) (history_ref future_ref : ℕ) :
    read (copy2 s history_ref future_ref) s.length = read s history_ref := by
  rw [copy2, read_append_ne _ _ _ (by simp), read_append_self]

theorem read_copy2_fut {Rot : Type} (s : Store Rot) (history_ref future_ref : ℕ)
    (hf : future_ref < s.length) :
    read (copy2 s history_ref future_ref) (s.length + 1) = read s future_ref := by
  have h1 : (s ++ [read s history_ref]).length = s.length + 1 := by simp
  rw [copy2, ← h1, read_append_self, read_append_ne _ _ _ (by omega)]

theorem read_copy2_old {Rot : Type} (s : Store Rot) (history_ref future_ref r : ℕ)
    (hr : r < s.length) :
    read (copy2 s history_ref future_ref) r = read s r := by
  rw [copy2, read_append_ne _ _ _ (by simp; omega), read_append_ne _ _ _ (by omega)]

/-! Branch normal forms of `perturb`. -/

theorem perturb_eq_of_gate {Rot : Type} (env : Env Rot) (perturb_prob rand : ℝ)
    (offsets : ℝ × ℝ × ℝ) (s : Store Rot) (history_ref future_ref : ℕ)
    (hc : perturb_prob ≤ rand) :
    perturb env perturb_prob rand offsets s history_ref future_ref =
      ⟨copy2 s history_ref future_ref, s.length, s.length + 1, false⟩ := by
  simp [perturb, hc, alloc, copy2]

theorem perturb_eq_of_low_lateral {Rot : Type} (env : Env Rot) (perturb_prob rand : ℝ)
    (offsets : ℝ × ℝ × ℝ) (s : Store Rot) (history_ref future_ref : ℕ)
    (hc : ¬ perturb_prob ≤ rand) (hl : |offsets.1| < NUMERICAL_THRESHOLD) :
    perturb env perturb_prob rand offsets s history_ref future_ref =
      ⟨copy2 s history_ref future_ref, s.length, s.length + 1, true⟩ := by
  simp [perturb, hc, hl, alloc, copy2]

theorem perturb_eq_of_short {Rot : Type} (env : Env Rot) (perturb_prob rand : ℝ)
    (offsets : ℝ × ℝ × ℝ) (s : Store Rot) (history_ref future_ref : ℕ)
    (hc : ¬ perturb_prob ≤ rand) (hl : ¬ |offsets.1| < NUMERICAL_THRESHOLD)
    (hs : (read s history_ref).length + (read s future_ref).length < 2) :
    perturb env perturb_prob rand offsets s history_ref future_ref =
      ⟨copy2 s history_ref future_ref, s.length, s.length + 1, false⟩ := by
  simp [perturb, hc, hl, hs, alloc, copy2]

theorem perturb_eq_of_full {Rot : Type} (env : Env Rot) (perturb_prob rand : ℝ)
    (offsets : ℝ × ℝ × ℝ) (s : Store Rot) (history_ref future_ref : ℕ)
    (hc : ¬ perturb_prob ≤ rand) (hl : ¬ |offsets.1| < NUMERICAL_THRESHOLD)
    (hs : ¬ (read s history_ref).length + (read s future_ref).length < 2) :
    perturb env perturb_prob rand offsets s history_ref future_ref =
      ⟨write (write (copy2 s history_ref future_ref) s.length
          (perturb_applied env (read s history_ref) (read s future_ref)
            offsets.1 offsets.2.1 offsets.2.2).1) (s.length + 1)
          (perturb_applied env (read s history_ref) (read s future_ref)
            offsets.1 offsets.2.1 offsets.2.2).2,
        s.length, s.length + 1, false⟩ := by
  simp [perturb, hc, hl, hs, alloc, copy2]

/-- C1: if the probability gate passes and the sampled offset has
`|lateral_m| < 1e-5`, `perturb` returns fresh buffers whose values equal the
original history and future frames, whatever the sampled longitudinal and yaw
offsets are; the low-lateral-distance warning fires and no exception is
raised (the function is total on this path). -/
theorem claim_C1 {Rot : Type} (env : Env Rot)
    (perturb_prob rand lateral_offset_m longitudinal_offset_m yaw_offset_rad : ℝ)
    (s : Store Rot) (history_ref future_ref : ℕ)
    (hh : history_ref < s.length) (hf : future_ref < s.length)
    (hgate : rand < perturb_prob)
    (hlat : |lateral_offset_m| < NUMERICAL_THRESHOLD) :
    read (perturb env perturb_prob rand (lateral_offset_m, longitudinal_offset_m, yaw_offset_rad)
        s history_ref future_ref).store
      (perturb env perturb_prob rand (lateral_offset_m, longitudinal_offset_m, yaw_offset_rad)
        s history_ref future_ref).history_ref = read s history_ref ∧
    read (perturb env perturb_prob rand (lateral_offset_m, longitudinal_offset_m, yaw_offset_rad)
        s history_ref future_ref).store
      (perturb env perturb_prob rand (lateral_offset_m, longitudinal_offset_m, yaw_offset_rad)
        s history_ref future_ref).future_ref = read s future_ref ∧
    (perturb env perturb_prob rand (lateral_offset_m, longitudinal_offset_m, yaw_offset_rad)
        s history_ref future_ref).warned = true := by
  rw [perturb_eq_of_low_lateral env perturb_prob rand _ s history_ref future_ref
    (not_le.mpr hgate) hlat]
  exact ⟨read_copy2_hist s history_ref future_ref, read_copy2_fut s history_ref future_ref hf, rfl⟩

/-- Witness for C1 at a concrete store, gate draw and offset sample. -/
theorem claim_C1_witness :
    ((0 : ℕ) < (([[⟨(1, 2, 3), ()⟩], []] : Store Unit)).length ∧
      (1 : ℕ) < (([[⟨(1, 2, 3), ()⟩], []] : Store Unit)).length ∧
      (0 : ℝ) < 1 ∧ |(0 : ℝ)| < NUMERICAL_THRESHOLD) ∧
    read (perturb (⟨fun _ => 0, fun _ => (), fun _ => ⟨[], [], [], [], [], []⟩⟩ : Env Unit)
        1 0 (0, 5, 7) [[⟨(1, 2, 3), ()⟩], []] 0 1).store
      (perturb (⟨fun _ => 0, fun _ => (), fun _ => ⟨[], [], [], [], [], []⟩⟩ : Env Unit)
        1 0 (0, 5, 7) [[⟨(1, 2, 3), ()⟩], []] 0 1).history_ref =
      read ([[⟨(1, 2, 3), ()⟩], []] : Store Unit) 0 := by
  refine ⟨⟨by simp, by simp, by norm_num, by norm_num [NUMERICAL_THRESHOLD]⟩, ?_⟩
  exact (claim_C1 (⟨fun _ => 0, fun _ => (), fun _ => ⟨[], [], [], [], [], []⟩⟩ : Env Unit)
    1 0 0 5 7 [[⟨(1, 2, 3), ()⟩], []] 0 1 (by simp) (by simp)
    (by norm_num) (by norm_num [NUMERICAL_THRESHOLD])).1

/-- C2: whenever the two buffers hold fewer than 2 frames in total, every
path of `perturb` returns buffers value-equal to the originals — the
probability gate, the low-lateral gate and the explicit length check all
short-circuit before any perturbation is attempted. -/
theorem claim_C2 {Rot : Type} (env : Env Rot) (perturb_prob rand : ℝ)
    (offsets : ℝ × ℝ × ℝ) (s : Store Rot) (history_ref future_ref : ℕ)
    (hh : history_ref < s.length) (hf : future_ref < s.length)
    (hlen : (read s history_ref).length + (read s future_ref).length < 2) :
    read (perturb env perturb_prob rand offsets s history_ref future_ref).store
      (perturb env perturb_prob rand offsets s history_ref future_ref).history_ref =
      read s history_ref ∧
    read (perturb env perturb_prob rand offsets s history_ref future_ref).store
      (perturb env perturb_prob rand offsets s history_ref future_ref).future_ref =
      read s future_ref := by
  by_cases hc : perturb_prob ≤ rand
  · rw [perturb_eq_of_gate env perturb_prob rand offsets s history_ref future_ref hc]
    exact ⟨read_copy2_hist s history_ref future_ref, read_copy2_fut s history_ref future_ref hf⟩
  · by_cases hl : |offsets.1| < NUMERICAL_THRESHOLD
    · rw [perturb_eq_of_low_lateral env perturb_prob rand offsets s history_ref future_ref hc hl]
      exact ⟨read_copy2_hist s history_ref future_ref, read_copy2_fut s history_ref future_ref hf⟩
    · rw [perturb_eq_of_short env perturb_prob rand offsets s history_ref future_ref hc hl hlen]
      exact ⟨read_copy2_hist s history_ref future_ref, read_copy2_fut s history_ref future_ref hf⟩

/-- Witness for C2: one history frame and no future frames. -/
theorem claim_C2_witness :
    ((0 : ℕ) < (([[⟨(1, 2, 3), ()⟩], []] : Store Unit)).length ∧
      (1 : ℕ) < (([[⟨(1, 2, 3), ()⟩], []] : Store Unit)).length ∧
      (read ([[⟨(1, 2, 3), ()⟩], []] : Store Unit) 0).length +
        (read ([[⟨(1, 2, 3), ()⟩], []] : Store Unit) 1).length < 2) ∧
    read (perturb (⟨fun _ => 0, fun _ => (), fun _ => ⟨[], [], [], [], [], []⟩⟩ : Env Unit)
        1 0 (1, 0, 0) [[⟨(1, 2, 3), ()⟩], []] 0 1).store
      (perturb (⟨fun _ => 0, fun _ => (), fun _ => ⟨[], [], [], [], [], []⟩⟩ : Env Unit)
        1 0 (1, 0, 0) [[⟨(1, 2, 3), ()⟩], []] 0 1).history_ref =
      read ([[⟨(1, 2, 3), ()⟩], []] : Store Unit) 0 := by
  refine ⟨⟨by simp, by simp, by simp [read]⟩, ?_⟩
  exact (claim_C2 (⟨fun _ => 0, fun _ => (), fun _ => ⟨[], [], [], [], [], []⟩⟩ : Env Unit)
    1 0 (1, 0, 0) [[⟨(1, 2, 3), ()⟩], []] 0 1 (by simp) (by simp) (by simp [read])).1

/-- C3: when the uniform draw is at least `perturb_prob`, `perturb` returns
value-equal copies held behind references distinct from the inputs, and
overwriting either returned buffer leaves both original buffers unchanged. -/
theorem claim_C3 {Rot : Type} (env : Env Rot) (perturb_prob rand : ℝ)
    (offsets : ℝ × ℝ × ℝ) (s : Store Rot) (history_ref future_ref : ℕ)
    (hh : history_ref < s.length) (hf : future_ref < s.length)
    (hgate : perturb_prob ≤ rand) :
    read (perturb env perturb_prob rand offsets s history_ref future_ref).store
      (perturb env perturb_prob rand offsets s history_ref future_ref).history_ref =
      read s history_ref ∧
    read (perturb env perturb_prob rand offsets s history_ref future_ref).store
      (perturb env perturb_prob rand offsets s history_ref future_ref).future_ref =
      read s future_ref ∧
    (perturb env perturb_prob rand offsets s history_ref future_ref).history_ref ≠ history_ref ∧
    (perturb env perturb_prob rand offsets s history_ref future_ref).future_ref ≠ future_ref ∧
    (∀ v, read (write (perturb env perturb_prob rand offsets s history_ref future_ref).store
      (perturb env perturb_prob rand offsets s history_ref future_ref).history_ref v)
        history_ref = read s history_ref) ∧
    (∀ v, read (write (perturb env perturb_prob rand offsets s history_ref future_ref).store
      (perturb env perturb_prob rand offsets s history_ref future_ref).future_ref v)
        future_ref = read s future_ref) := by
  rw [perturb_eq_of_gate env perturb_prob rand offsets s history_ref future_ref hgate]
  refine ⟨read_copy2_hist s history_ref future_ref, read_copy2_fut s history_ref future_ref hf,
    by simp; omega, by simp; omega, ?_, ?_⟩
  · intro v
    rw [read_write_ne _ _ _ _ (by simp; omega), read_copy2_old s history_ref future_ref _ hh]
  · intro v
    rw [read_write_ne _ _ _ _ (by simp; omega), read_copy2_old s history_ref future_ref _ hf]

/-- Witness for C3: gate draw equal to the probability, so the gate fails. -/
theorem claim_C3_witness :
    ((0 : ℕ) < (([[⟨(1, 2, 3), ()⟩], []] : Store Unit)).length ∧
      (1 : ℕ) < (([[⟨(1, 2, 3), ()⟩], []] : Store Unit)).length ∧ (1 : ℝ) ≤ 1) ∧
    (perturb (⟨fun _ => 0, fun _ => (), fun _ => ⟨[], [], [], [], [], []⟩⟩ : Env Unit)
      1 1 (1, 0, 0) [[⟨(1, 2, 3), ()⟩], []] 0 1).history_ref ≠ 0 := by
  refine ⟨⟨by simp, by simp, le_refl 1⟩, ?_⟩
  exact (claim_C3 (⟨fun _ => 0, fun _ => (), fun _ => ⟨[], [], [], [], [], []⟩⟩ : Env Unit)
    1 1 (1, 0, 0) [[⟨(1, 2, 3), ()⟩], []] 0 1 (by simp) (by simp) (le_refl 1)).2.2.1

/-- C4: on every execution path of `perturb` — gate no-op, low-lateral no-op,
short-trajectory no-op, and the full perturbation — the caller's buffers hold
the same values after the call as before it, and the returned references are
fresh, not the caller's. -/
theorem claim_C4 {Rot : Type} (env : Env Rot) (perturb_prob rand : ℝ)
    (offsets : ℝ × ℝ × ℝ) (s : Store Rot) (history_ref future_ref : ℕ)
    (hh : history_ref < s.length) (hf : future_ref < s.length) :
    read (perturb env perturb_prob rand offsets s history_ref future_ref).store history_ref =
      read s history_ref ∧
    read (perturb env perturb_prob rand offsets s history_ref future_ref).store future_ref =
      read s future_ref ∧
    (perturb env perturb_prob rand offsets s history_ref future_ref).history_ref ≠ history_ref ∧
    (perturb env perturb_prob rand offsets s history_ref future_ref).future_ref ≠ future_ref := by
  have hcopy : read (copy2 s history_ref future_ref) history_ref = read s history_ref ∧
      read (copy2 s history_ref future_ref) future_ref = read s future_ref :=
    ⟨read_copy2_old s history_ref future_ref _ hh, read_copy2_old s history_ref future_ref _ hf⟩
  by_cases hc : perturb_prob ≤ rand
  · rw [perturb_eq_of_gate env perturb_prob rand offsets s history_ref future_ref hc]
    exact ⟨hcopy.1, hcopy.2, by simp; omega, by simp; omega⟩
  · by_cases hl : |offsets.1| < NUMERICAL_THRESHOLD
    · rw [perturb_eq_of_low_lateral env perturb_prob rand offsets s history_ref future_ref hc hl]
      exact ⟨hcopy.1, hcopy.2, by simp; omega, by simp; omega⟩
    · by_cases hs : (read s history_ref).length + (read s future_ref).length < 2
      · rw [perturb_eq_of_short env perturb_prob rand offsets s history_ref future_ref hc hl hs]
        exact ⟨hcopy.1, hcopy.2, by simp; omega, by simp; omega⟩
      · rw [perturb_eq_of_full env perturb_prob rand offsets s history_ref future_ref hc hl hs]
        refine ⟨?_, ?_, by simp; omega, by simp; omega⟩
        · rw [read_write_ne _ _ _ _ (by omega), read_write_ne _ _ _ _ (by omega), hcopy.1]
        · rw [read_write_ne _ _ _ _ (by omega), read_write_ne _ _ _ _ (by omega), hcopy.2]

/-- Witness for C4 on the full perturbation path. -/
theorem claim_C4_witness :
    ((0 : ℕ) < (([[⟨(1, 2, 3), ()⟩, ⟨(4, 5, 6), ()⟩], []] : Store Unit)).length ∧
      (1 : ℕ) < (([[⟨(1, 2, 3), ()⟩, ⟨(4, 5, 6), ()⟩], []] : Store Unit)).length) ∧
    (perturb (⟨fun _ => 0, fun _ => (), fun _ => ⟨[], [], [], [], [], []⟩⟩ : Env Unit)
      1 0 (1, 0, 0) [[⟨(1, 2, 3), ()⟩, ⟨(4, 5, 6), ()⟩], []] 0 1).history_ref ≠ 0 := by
  refine ⟨⟨by simp, by simp⟩, ?_⟩
  exact (claim_C4 (⟨fun _ => 0, fun _ => (), fun _ => ⟨[], [], [], [], [], []⟩⟩ : Env Unit)
    1 0 (1, 0, 0) [[⟨(1, 2, 3), ()⟩, ⟨(4, 5, 6), ()⟩], []] 0 1 (by simp) (by simp)).2.2.1

/-! Index lemmas for the numpy model and the geometry claims. -/

theorem npIdx_ofNat (n i : ℕ) : npIdx n (i : ℤ) = i := by
  simp [npIdx]

theorem npIdx_ofNat_add_one (n i : ℕ) : npIdx n ((i : ℤ) + 1) = i + 1 := by
  have h : ((i : ℤ) + 1) = ((i + 1 : ℕ) : ℤ) := by push_cast; ring
  rw [h, npIdx_ofNat]

theorem npIdx_neg_one (n : ℕ) : npIdx n (-1) = n - 1 := by
  simp [npIdx]
  omega

theorem npGetD_ofNat {α : Type} (l : List α) (i : ℕ) (d : α) :
    npGetD l (i : ℤ) d = l.getD i d := by
  rw [npGetD, npIdx_ofNat]

theorem npGetD_ofNat_add_one {α : Type} (l : List α) (i : ℕ) (d : α) :
    npGetD l ((i : ℤ) + 1) d = l.getD (i + 1) d := by
  rw [npGetD, npIdx_ofNat_add_one]

theorem npGetD_neg_one {α : Type} (l : List α) (d : α) :
    npGetD l (-1) d = l.getD (l.length - 1) d := by
  rw [npGetD, npIdx_neg_one]

theorem npGetD_zero {α : Type} (l : List α) (d : α) :
    npGetD l 0 d = l.getD 0 d := by
  rw [npGetD]
  simp [npIdx]

/-- C5: at any index `i` with a following frame, when the consecutive row
difference `d` clears the `1e-5` threshold, `get_offset_at_idx` normalizes
`d`, takes the lateral direction as the 90-degree clockwise rotation
`(d.y, -d.x)` of the normalized direction, and returns
`lateral_m * lateral + longitudinal_m * d_normalized` componentwise. -/
theorem claim_C5 (trajectory : List Pose) (i : ℕ)
    (lateral_offset_m longitudinal_offset_m : ℝ) (d : Pose)
    (hd : d = psub (trajectory.getD (i + 1) (0, 0, 0)) (trajectory.getD i (0, 0, 0)))
    (hnext : i + 1 < trajectory.length)
    (hnorm : consecutive_point_distance_threshold ≤ norm3 d) :
    get_offset_at_idx trajectory (i : ℤ) lateral_offset_m longitudinal_offset_m =
      (lateral_offset_m * (d.2.1 / norm3 d) + longitudinal_offset_m * (d.1 / norm3 d),
       lateral_offset_m * (-(d.1 / norm3 d)) + longitudinal_offset_m * (d.2.1 / norm3 d)) := by
  have hg : ¬ ((trajectory.length : ℤ) ≤ (i : ℤ) + 1) := by omega
  rw [get_offset_at_idx]
  simp only [npGetD_ofNat, npGetD_ofNat_add_one, if_neg hg, ← hd,
    if_neg (not_lt.mpr hnorm)]

/-- Witness for C5: the two-point trajectory `(0,0), (1,0)` at index 0 with
`lateral_m = 1`, `longitudinal_m = 0` yields the displacement `(0, -1)`. -/
theorem claim_C5_witness :
    ((0 : ℕ) + 1 < ([((0 : ℝ), (0 : ℝ), (0 : ℝ)), (1, 0, 0)] : List Pose).length ∧
      consecutive_point_distance_threshold ≤ norm3 (1, 0, 0)) ∧
    get_offset_at_idx [((0 : ℝ), (0 : ℝ), (0 : ℝ)), (1, 0, 0)] 0 1 0 = (0, -1) := by
  have hn : norm3 ((1 : ℝ), 0, 0) = 1 := by
    simp [norm3]
  have hth : consecutive_point_distance_threshold ≤ norm3 ((1 : ℝ), 0, 0) := by
    rw [hn, consecutive_point_distance_threshold]; norm_num
  refine ⟨⟨by norm_num, hth⟩, ?_⟩
  have h := claim_C5 [((0 : ℝ), (0 : ℝ), (0 : ℝ)), (1, 0, 0)] 0 1 0 (1, 0, 0)
    (by simp [psub]) (by norm_num) hth
  rw [show ((0 : ℕ) : ℤ) = 0 from rfl] at h
  rw [h, hn]
  norm_num

/-- C6: `get_offset_at_idx` fails softly. It returns the zero vector when no
frame follows index `i`; when the consecutive row difference is below the
`1e-5` threshold it falls back to the overall displacement `pose[last] -
pose[0]` (normalized); and when that is also below the threshold it returns
the zero vector regardless of the requested lateral and longitudinal
magnitudes. -/
theorem claim_C6 (trajectory : List Pose) (i : ℕ)
    (lateral_offset_m longitudinal_offset_m : ℝ) :
    (((trajectory.length : ℤ) ≤ (i : ℤ) + 1 →
      get_offset_at_idx trajectory (i : ℤ) lateral_offset_m longitudinal_offset_m = (0, 0)) ∧
    (∀ dd : Pose, i + 1 < trajectory.length →
      norm3 (psub (trajectory.getD (i + 1) (0, 0, 0)) (trajectory.getD i (0, 0, 0))) <
        consecutive_point_distance_threshold →
      dd = psub (trajectory.getD (trajectory.length - 1) (0, 0, 0))
        (trajectory.getD 0 (0, 0, 0)) →
      consecutive_point_distance_threshold ≤ norm3 dd →
      get_offset_at_idx trajectory (i : ℤ) lateral_offset_m longitudinal_offset_m =
        (lateral_offset_m * (dd.2.1 / norm3 dd) + longitudinal_offset_m * (dd.1 / norm3 dd),
         lateral_offset_m * (-(dd.1 / norm3 dd)) +
           longitudinal_offset_m * (dd.2.1 / norm3 dd)))) ∧
    (i + 1 < trajectory.length →
      norm3 (psub (trajectory.getD (i + 1) (0, 0, 0)) (trajectory.getD i (0, 0, 0))) <
        consecutive_point_distance_threshold →
      norm3 (psub (trajectory.getD (trajectory.length - 1) (0, 0, 0))
        (trajectory.getD 0 (0, 0, 0))) < consecutive_point_distance_threshold →
      get_offset_at_idx trajectory (i : ℤ) lateral_offset_m longitudinal_offset_m = (0, 0)) := by
  refine ⟨⟨?_, ?_⟩, ?_⟩
  · intro hg
    rw [get_offset_at_idx, if_pos hg]
  · intro dd hnext hlow hdd hbig
    have hg : ¬ ((trajectory.length : ℤ) ≤ (i : ℤ) + 1) := by omega
    rw [get_offset_at_idx]
    simp only [npGetD_ofNat, npGetD_ofNat_add_one, npGetD_neg_one, npGetD_zero,
      if_neg hg, if_pos hlow, ← hdd, if_neg (not_lt.mpr hbig)]
  · intro hnext hlow hlow2
    have hg : ¬ ((trajectory.length : ℤ) ≤ (i : ℤ) + 1) := by omega
    rw [get_offset_at_idx]
    simp only [npGetD_ofNat, npGetD_ofNat_add_one, npGetD_neg_one, npGetD_zero,
      if_neg hg, if_pos hlow, if_pos hlow2]
    norm_num

/-- Witness for C6: the after-end case on a two-point trajectory, the
fallback on a trajectory stationary at the perturbation index with overall
displacement `(2,0,0)`, and the fully stationary case with non-zero
requested magnitudes. -/
theorem claim_C6_witness :
    get_offset_at_idx [((0 : ℝ), (0 : ℝ), (0 : ℝ)), (1, 1, 1)] 1 1 1 = (0, 0) ∧
    get_offset_at_idx [((0 : ℝ), (0 : ℝ), (0 : ℝ)), (0, 0, 0), (2, 0, 0)] 0 1 0 = (0, -1) ∧
    get_offset_at_idx [((0 : ℝ), (0 : ℝ), (0 : ℝ)), (0, 0, 0)] 0 3 7 = (0, 0) := by
  have hz : norm3 ((0 : ℝ), 0, 0) = 0 := by simp [norm3]
  have hlowz : norm3 ((0 : ℝ), 0, 0) < consecutive_point_distance_threshold := by
    rw [hz, consecutive_point_distance_threshold]; norm_num
  have h2 : norm3 ((2 : ℝ), 0, 0) = 2 := by
    rw [norm3]
    norm_num
    rw [show (4 : ℝ) = 2 ^ 2 by norm_num, Real.sqrt_sq (by norm_num : (0 : ℝ) ≤ 2)]
  refine ⟨?_, ?_, ?_⟩
  · exact (claim_C6 [((0 : ℝ), (0 : ℝ), (0 : ℝ)), (1, 1, 1)] 1 1 1).1.1 (by norm_num)
  · have h := (claim_C6 [((0 : ℝ), (0 : ℝ), (0 : ℝ)), (0, 0, 0), (2, 0, 0)] 0 1 0).1.2
      (2, 0, 0) (by norm_num) (by simpa [psub] using hlowz) (by simp [psub])
      (by rw [h2, consecutive_point_distance_threshold]; norm_num)
    rw [show ((0 : ℕ) : ℤ) = 0 from rfl] at h
    rw [h, h2]
    norm_num
  · have h := (claim_C6 [((0 : ℝ), (0 : ℝ), (0 : ℝ)), (0, 0, 0)] 0 3 7).2
      (by norm_num) (by simpa [psub] using hlowz) (by simpa [psub] using hlowz)
    rw [show ((0 : ℕ) : ℤ) = 0 from rfl] at h
    exact h

/-! Lemmas on the speed estimator. -/

theorem speed_diffs_length : ∀ l : List (ℝ × ℝ), (speed_diffs l).length = l.length - 1
  | [] => by simp [speed_diffs]
  | [_] => by simp [speed_diffs]
  | _ :: q :: rest => by
    have ih := speed_diffs_length (q :: rest)
    simp [speed_diffs] at ih ⊢
    omega

theorem speed_diffs_getD : ∀ (l : List (ℝ × ℝ)) (k : ℕ), k + 1 < l.length →
    (speed_diffs l).getD k 0 =
      Real.sqrt (((l.getD (k + 1) (0, 0)).2 - (l.getD k (0, 0)).2) ^ 2 +
        ((l.getD (k + 1) (0, 0)).1 - (l.getD k (0, 0)).1) ^ 2)
  | [], k, h => by simp at h
  | [_], k, h => by simp at h
  | _ :: _ :: _, 0, _ => by simp [speed_diffs]
  | p :: q :: rest, (k + 1), h => by
    have ih := speed_diffs_getD (q :: rest) k (by simpa using h)
    simpa [speed_diffs] using ih

theorem getLastD_eq_getD : ∀ (l : List ℝ) (d : ℝ), l.getLastD d = l.getD (l.length - 1) d
  | [], _ => rfl
  | [_], _ => rfl
  | a :: b :: t, d => by
    have ih := getLastD_eq_getD (b :: t) d
    simp only [List.getLastD_eq_getLast?, List.getLast?_cons_cons] at ih ⊢
    simpa using ih

theorem speeds_with_dup_length (ps : List (ℝ × ℝ)) (h : 1 ≤ ps.length) :
    (speeds_with_dup ps).length = ps.length := by
  simp [speeds_with_dup, speed_diffs_length]
  omega

theorem speeds_with_dup_getD_lt (ps : List (ℝ × ℝ)) (k : ℕ) (h : k + 1 < ps.length) :
    (speeds_with_dup ps).getD k 0 = (speed_diffs ps).getD k 0 := by
  rw [speeds_with_dup, List.getD_append]
  rw [speed_diffs_length]
  omega

theorem speeds_with_dup_last (ps : List (ℝ × ℝ)) (h : 2 ≤ ps.length) :
    (speeds_with_dup ps).getD (ps.length - 1) 0 =
      (speeds_with_dup ps).getD (ps.length - 2) 0 := by
  have hlen : (speed_diffs ps).length = ps.length - 1 := speed_diffs_length ps
  have h1 : (speeds_with_dup ps).getD (ps.length - 1) 0 = (speed_diffs ps).getLastD 0 := by
    rw [speeds_with_dup, List.getD_append_right _ _ _ _ (by omega)]
    rw [hlen]
    simp [show ps.length - 1 - (ps.length - 1) = 0 from by omega]
  have h2 : (speeds_with_dup ps).getD (ps.length - 2) 0 = (speed_diffs ps).getD (ps.length - 2) 0 := by
    rw [speeds_with_dup, List.getD_append]
    omega
  rw [h1, h2, getLastD_eq_getD, hlen, show ps.length - 1 - 1 = ps.length - 2 from by omega]

/-- C7: for `N ≥ 2` positions, `_compute_speeds_from_positions` succeeds with
`N` speeds, `speed[k]` the Euclidean distance between `position[k+1]` and
`position[k]` for `k < N - 1`, and `speed[N-1]` duplicating `speed[N-2]`. -/
theorem claim_C7 (ps : List (ℝ × ℝ)) (h : 2 ≤ ps.length) :
    ∃ l, _compute_speeds_from_positions ps = some l ∧ l.length = ps.length ∧
      (∀ k, k + 1 < ps.length →
        l.getD k 0 = Real.sqrt (((ps.getD (k + 1) (0, 0)).2 - (ps.getD k (0, 0)).2) ^ 2 +
          ((ps.getD (k + 1) (0, 0)).1 - (ps.getD k (0, 0)).1) ^ 2)) ∧
      l.getD (ps.length - 1) 0 = l.getD (ps.length - 2) 0 := by
  refine ⟨speeds_with_dup ps, ?_, speeds_with_dup_length ps (by omega), ?_, ?_⟩
  · rw [_compute_speeds_from_positions, if_pos h]
  · intro k hk
    rw [speeds_with_dup_getD_lt ps k hk, speed_diffs_getD ps k hk]
  · exact speeds_with_dup_last ps h

/-- Witness for C7: positions `(0,0), (3,4), (3,4)` yield speeds `5, 0, 0`
(the last duplicating the second-to-last). -/
theorem claim_C7_witness :
    (2 : ℕ) ≤ ([((0 : ℝ), (0 : ℝ)), (3, 4), (3, 4)] : List (ℝ × ℝ)).length ∧
    _compute_speeds_from_positions [((0 : ℝ), (0 : ℝ)), (3, 4), (3, 4)] =
      some [5, 0, 0] := by
  have happ := claim_C7 [((0 : ℝ), (0 : ℝ)), (3, 4), (3, 4)] (by norm_num)
  have h25 : Real.sqrt (((4 : ℝ) - 0) ^ 2 + ((3 : ℝ) - 0) ^ 2) = 5 := by
    rw [show ((4 : ℝ) - 0) ^ 2 + ((3 : ℝ) - 0) ^ 2 = 5 ^ 2 by norm_num,
      Real.sqrt_sq (by norm_num : (0 : ℝ) ≤ 5)]
  have h0 : Real.sqrt (((4 : ℝ) - 4) ^ 2 + ((3 : ℝ) - 3) ^ 2) = 0 := by
    rw [show ((4 : ℝ) - 4) ^ 2 + ((3 : ℝ) - 3) ^ 2 = 0 by norm_num, Real.sqrt_zero]
  refine ⟨by norm_num, ?_⟩
  rw [_compute_speeds_from_positions, if_pos (by norm_num)]
  simp only [speeds_with_dup, speed_diffs, h25, h0]
  simp

/-! The assembly/split round trip. -/

theorem map_eq_self_of_forall {α : Type} (l : List α) (f : α → α)
    (h : ∀ x ∈ l, f x = x) : l.map f = l := by
  induction l with
  | nil => rfl
  | cons a t ih =>
    simp only [List.map_cons, h a (by simp)]
    rw [ih fun x hx => h x (by simp [hx])]

/-- C8: joining the reverse-chronological history with the future into a
chronological sequence and splitting that identical sequence back reproduces
both buffers exactly, whenever the yaw/rotation conversion round-trips on the
rotations present in the buffers (a 3x3 yaw rotation decodes and re-encodes
to itself). -/
theorem claim_C8 {Rot : Type} (env : Env Rot)
    (history_frames future_frames : List (Frame Rot))
    (hhist : ∀ f ∈ history_frames,
      env.yaw_as_rotation33 (env.rotation33_as_yaw f.ego_rotation) = f.ego_rotation)
    (hfut : ∀ f ∈ future_frames,
      env.yaw_as_rotation33 (env.rotation33_as_yaw f.ego_rotation) = f.ego_rotation) :
    split_history_frames env history_frames
      (_get_history_and_future_frames_as_joint_trajectory env history_frames future_frames) =
      history_frames ∧
    split_future_frames env future_frames history_frames.length
      (_get_history_and_future_frames_as_joint_trajectory env history_frames future_frames) =
      future_frames := by
  constructor
  · rw [split_history_frames, _get_history_and_future_frames_as_joint_trajectory,
      List.take_left' (by simp), ← List.map_reverse, List.reverse_reverse,
      List.zipWith_map_left, List.zipWith_same]
    exact map_eq_self_of_forall _ _ fun f hf => by simp [hhist f hf]
  · rw [split_future_frames, _get_history_and_future_frames_as_joint_trajectory,
      List.drop_left' (by simp), List.zipWith_map_left, List.zipWith_same]
    exact map_eq_self_of_forall _ _ fun f hf => by simp [hfut f hf]

/-- Witness for C8 with the identity yaw/rotation coding on `Rot := ℝ`. -/
theorem claim_C8_witness :
    ((∀ f ∈ ([⟨(1, 2, 3), (4 : ℝ)⟩] : List (Frame ℝ)),
      (fun y => y) ((fun r => r) f.ego_rotation) = f.ego_rotation) ∧
     (∀ f ∈ ([⟨(5, 6, 7), (8 : ℝ)⟩] : List (Frame ℝ)),
      (fun y => y) ((fun r => r) f.ego_rotation) = f.ego_rotation)) ∧
    split_history_frames (⟨fun r => r, fun y => y, fun _ => ⟨[], [], [], [], [], []⟩⟩ : Env ℝ)
      [⟨(1, 2, 3), (4 : ℝ)⟩]
      (_get_history_and_future_frames_as_joint_trajectory
        (⟨fun r => r, fun y => y, fun _ => ⟨[], [], [], [], [], []⟩⟩ : Env ℝ)
        [⟨(1, 2, 3), (4 : ℝ)⟩] [⟨(5, 6, 7), (8 : ℝ)⟩]) = [⟨(1, 2, 3), (4 : ℝ)⟩] := by
  refine ⟨⟨fun f _ => rfl, fun f _ => rfl⟩, ?_⟩
  exact (claim_C8 (⟨fun r => r, fun y => y, fun _ => ⟨[], [], [], [], [], []⟩⟩ : Env ℝ)
    [⟨(1, 2, 3), (4 : ℝ)⟩] [⟨(5, 6, 7), (8 : ℝ)⟩] (fun f _ => rfl) (fun f _ => rfl)).1

/-! Lemmas for the anchor index and in-place writes. -/

theorem npIdx_sub_one (n H : ℕ) (h : 1 ≤ H) : npIdx n ((H : ℤ) - 1) = H - 1 := by
  rw [npIdx, if_neg (by omega)]
  omega

theorem getD_set_self {α : Type} (l : List α) (n : ℕ) (v d : α) (h : n < l.length) :
    (l.set n v).getD n d = v := by
  simp [List.getD_eq_getElem?_getD, List.getElem?_set_self h]

theorem getD_set_ne {α : Type} (l : List α) (n m : ℕ) (v d : α) (h : n ≠ m) :
    (l.set n v).getD m d = l.getD m d := by
  simp [List.getD_eq_getElem?_getD, List.getElem?_set_ne h]

/-- C9: on the path that reaches the kinematic fit (`H ≥ 1` history frames,
`H + F ≥ 2` total), the x and y position weight arrays have length `H + F`
with value 5 at exactly the anchor index `H - 1` and value 1 at every other
index, and the yaw and speed weight arrays are all zero. -/
theorem claim_C9 {Rot : Type} (env : Env Rot)
    (history_frames future_frames : List (Frame Rot))
    (lateral_offset_m longitudinal_offset_m yaw_offset_rad : ℝ)
    (hH : 1 ≤ history_frames.length)
    (hlen : 2 ≤ history_frames.length + future_frames.length) :
    ∀ A : FitArgs, A = perturb_fit_args env history_frames future_frames
      lateral_offset_m longitudinal_offset_m yaw_offset_rad →
    (A.wgx.length = history_frames.length + future_frames.length ∧
     A.wgx.getD (history_frames.length - 1) 0 = 5 ∧
     (∀ i < history_frames.length + future_frames.length,
       i ≠ history_frames.length - 1 → A.wgx.getD i 0 = 1)) ∧
    (A.wgy.length = history_frames.length + future_frames.length ∧
     A.wgy.getD (history_frames.length - 1) 0 = 5 ∧
     (∀ i < history_frames.length + future_frames.length,
       i ≠ history_frames.length - 1 → A.wgy.getD i 0 = 1)) ∧
    A.wgr = List.replicate (history_frames.length + future_frames.length) 0 ∧
    A.wgv = List.replicate (history_frames.length + future_frames.length) 0 := by
  intro A hA
  subst hA
  have hanchor : history_frames.length - 1 < history_frames.length + future_frames.length := by
    omega
  have hw : npSet (List.replicate (history_frames.length + future_frames.length) (1 : ℝ))
      ((history_frames.length : ℤ) - 1) 5 =
      (List.replicate (history_frames.length + future_frames.length) (1 : ℝ)).set
        (history_frames.length - 1) 5 := by
    rw [npSet, List.length_replicate, npIdx_sub_one _ _ hH]
  have hlen5 : ((List.replicate (history_frames.length + future_frames.length) (1 : ℝ)).set
      (history_frames.length - 1) 5).length =
      history_frames.length + future_frames.length := by
    simp
  have hget5 : ((List.replicate (history_frames.length + future_frames.length) (1 : ℝ)).set
      (history_frames.length - 1) 5).getD (history_frames.length - 1) 0 = 5 :=
    getD_set_self _ _ _ _ (by simpa using hanchor)
  have hget1 : ∀ i < history_frames.length + future_frames.length,
      i ≠ history_frames.length - 1 →
      ((List.replicate (history_frames.length + future_frames.length) (1 : ℝ)).set
        (history_frames.length - 1) 5).getD i 0 = 1 := by
    intro i hi hne
    rw [getD_set_ne _ _ _ _ _ (Ne.symm hne)]
    simp [List.getD_eq_getElem?_getD, List.getElem?_replicate_of_lt hi]
  exact ⟨⟨by rw [perturb_fit_args]; simpa [hw] using hlen5,
      by rw [perturb_fit_args]; simpa [hw] using hget5,
      by rw [perturb_fit_args]; simpa [hw] using hget1⟩,
    ⟨by rw [perturb_fit_args]; simpa [hw] using hlen5,
      by rw [perturb_fit_args]; simpa [hw] using hget5,
      by rw [perturb_fit_args]; simpa [hw] using hget1⟩,
    by rw [perturb_fit_args], by rw [perturb_fit_args]⟩

/-- Witness for C9 with two history frames and one future frame. -/
theorem claim_C9_witness :
    ((1 : ℕ) ≤ ([⟨(0, 0, 0), ()⟩, ⟨(1, 0, 0), ()⟩] : List (Frame Unit)).length ∧
      (2 : ℕ) ≤ ([⟨(0, 0, 0), ()⟩, ⟨(1, 0, 0), ()⟩] : List (Frame Unit)).length +
        ([⟨(2, 0, 0), ()⟩] : List (Frame Unit)).length) ∧
    (perturb_fit_args (⟨fun _ => 0, fun _ => (), fun _ => ⟨[], [], [], [], [], []⟩⟩ : Env Unit)
      [⟨(0, 0, 0), ()⟩, ⟨(1, 0, 0), ()⟩] [⟨(2, 0, 0), ()⟩] 1 0 0).wgx.getD 1 0 = 5 := by
  refine ⟨⟨by norm_num, by norm_num⟩, ?_⟩
  exact ((claim_C9 (⟨fun _ => 0, fun _ => (), fun _ => ⟨[], [], [], [], [], []⟩⟩ : Env Unit)
    [⟨(0, 0, 0), ()⟩, ⟨(1, 0, 0), ()⟩] [⟨(2, 0, 0), ()⟩] 1 0 0 (by norm_num) (by norm_num)
    _ rfl).1).2.1

/-- C10: with no future frames and at least two history frames, the anchor
index `H - 1` is the last index of the joined trajectory, so
`get_offset_at_idx` returns the zero vector there, and only the yaw offset
changes the anchor row of the fit target trajectory; all other rows are
unchanged. -/
theorem claim_C10 {Rot : Type} (env : Env Rot) (history_frames : List (Frame Rot))
    (lateral_offset_m longitudinal_offset_m yaw_offset_rad : ℝ)
    (hH : 2 ≤ history_frames.length) :
    get_offset_at_idx
      (_get_history_and_future_frames_as_joint_trajectory env history_frames [])
      ((history_frames.length : ℤ) - 1) lateral_offset_m longitudinal_offset_m = (0, 0) ∧
    (∀ i : ℕ, i ≠ history_frames.length - 1 →
      (trajectory_with_offset_applied env history_frames [] lateral_offset_m
        longitudinal_offset_m yaw_offset_rad).getD i (0, 0, 0) =
      (_get_history_and_future_frames_as_joint_trajectory env history_frames []).getD
        i (0, 0, 0)) ∧
    (trajectory_with_offset_applied env history_frames [] lateral_offset_m
        longitudinal_offset_m yaw_offset_rad).getD (history_frames.length - 1) (0, 0, 0) =
      (((_get_history_and_future_frames_as_joint_trajectory env history_frames []).getD
          (history_frames.length - 1) (0, 0, 0)).1,
       ((_get_history_and_future_frames_as_joint_trajectory env history_frames []).getD
          (history_frames.length - 1) (0, 0, 0)).2.1,
       ((_get_history_and_future_frames_as_joint_trajectory env history_frames []).getD
          (history_frames.length - 1) (0, 0, 0)).2.2 + yaw_offset_rad) := by
  have hjoinlen : (_get_history_and_future_frames_as_joint_trajectory env
      history_frames []).length = history_frames.length := by
    simp [_get_history_and_future_frames_as_joint_trajectory]
  have hoff : get_offset_at_idx
      (_get_history_and_future_frames_as_joint_trajectory env history_frames [])
      ((history_frames.length : ℤ) - 1) lateral_offset_m longitudinal_offset_m = (0, 0) := by
    rw [get_offset_at_idx, if_pos (by rw [hjoinlen]; omega)]
  have hH1 : 1 ≤ history_frames.length := by omega
  refine ⟨hoff, ?_, ?_⟩
  all_goals
    rw [trajectory_with_offset_applied]
    simp only [hoff]
    rw [npSet, npGetD, hjoinlen, npIdx_sub_one _ _ hH1]
    rw [npSet, npGetD, List.length_set, hjoinlen, npIdx_sub_one _ _ hH1]
  · intro i hne
    rw [getD_set_ne _ _ _ _ _ (Ne.symm hne), getD_set_ne _ _ _ _ _ (Ne.symm hne)]
  · have hlt : history_frames.length - 1 <
        (_get_history_and_future_frames_as_joint_trajectory env history_frames []).length := by
      rw [hjoinlen]; omega
    rw [getD_set_self _ _ _ _ (by simpa using hlt), getD_set_self _ _ _ _ hlt]
    simp

/-- Witness for C10 with two history frames and no future frames. -/
theorem claim_C10_witness :
    (2 : ℕ) ≤ ([⟨(0, 0, 0), ()⟩, ⟨(1, 0, 0), ()⟩] : List (Frame Unit)).length ∧
    get_offset_at_idx
      (_get_history_and_future_frames_as_joint_trajectory
        (⟨fun _ => 0, fun _ => (), fun _ => ⟨[], [], [], [], [], []⟩⟩ : Env Unit)
        [⟨(0, 0, 0), ()⟩, ⟨(1, 0, 0), ()⟩] [])
      (((([⟨(0, 0, 0), ()⟩, ⟨(1, 0, 0), ()⟩] : List (Frame Unit))).length : ℤ) - 1) 1 0 =
      (0, 0) := by
  refine ⟨by norm_num, ?_⟩
  exact (claim_C10 (⟨fun _ => 0, fun _ => (), fun _ => ⟨[], [], [], [], [], []⟩⟩ : Env Unit)
    [⟨(0, 0, 0), ()⟩, ⟨(1, 0, 0), ()⟩] 1 0 0 (by norm_num)).1

end

end AckermanPerturbationSpec
